import Mathlib

/-!
# npm-buildpack: the `npm ci` build process

A shallow embedding of `ci_build_process.go` (package `npminstall`):
`CIBuildProcess.ShouldRun`, the cache gate that compares the fingerprint of
`package-lock.json` with the stored `cache_sha`, and `CIBuildProcess.Run`, which
relocates `node_modules` into the layer directory, links it back and runs
`npm ci`.

The collaborators of the Go code (the `Summer`, the `Executable`, the operating
system calls and the logger) are parameters of the embedding.  Every call `Run`
makes is recorded, in order, as an `Event`.
-/

namespace npminstall

/-! ## Go values -/

/-- A Go `error` value: an error with a message, or the result of
`fmt.Errorf` with a `%w` verb, which keeps the formatted text and the wrapped
error.  The Go `nil` error is `none : Option GoError`. -/
inductive GoError where
  | plain (msg : String)
  | wrapped (msg : String) (inner : GoError)
  deriving DecidableEq, Repr

/-- The method `Error()` of an error value. -/
def GoError.Error : GoError → String
  | .plain msg => msg
  | .wrapped msg _ => msg

/-- The function `errors.Unwrap`. -/
def GoError.Unwrap : GoError → Option GoError
  | .plain _ => none
  | .wrapped _ inner => some inner

/-- The call `fmt.Errorf(pre + "%w", err)` for a literal prefix `pre`. -/
def Errorf_w (pre : String) (err : GoError) : GoError :=
  .wrapped (pre ++ err.Error) err

/-- A dynamic value held in an `interface{}`; only whether it is a `string`
matters to the code. -/
inductive GoValue where
  | nil
  | bool (b : Bool)
  | int (i : Int)
  | str (s : String)
  deriving DecidableEq, Repr

/-- A `map[string]interface{}`: `none` is the nil map, `some l` a map with the
bindings of `l` (the first binding of a key is the one in force). -/
abbrev Metadata := Option (List (String × GoValue))

/-- The index expression `metadata[key]`: the nil interface when the map is nil
or the key is absent. -/
def Metadata.index (m : Metadata) (key : String) : GoValue :=
  match m with
  | none => .nil
  | some l => (l.lookup key).getD .nil

/-- The type assertion `v.(string)` in its two-result form. -/
def GoValue.assertString : GoValue → String × Bool
  | .str s => (s, true)
  | _ => ("", false)

/-- The assignment `m[key] = v`, allocating the map when it is nil. -/
def Metadata.set (m : Metadata) (key : String) (v : GoValue) : Metadata :=
  match m with
  | none => some [(key, v)]
  | some l => some ((key, v) :: l.filter (fun kv => kv.1 != key))

/-! ## `path/filepath` on a Unix system -/

/-- Last step of `splitSlash`: the components of a path, given the characters
of the component being read (in reverse). -/
def splitSlashAux : List Char → List Char → List (List Char)
  | [], cur => [cur.reverse]
  | c :: cs, cur =>
    if c = '/' then cur.reverse :: splitSlashAux cs [] else splitSlashAux cs (c :: cur)

/-- The components of a path between its separators, empty ones included. -/
def splitSlash (p : List Char) : List (List Char) := splitSlashAux p []

/-- One step of `filepath.Clean` over the stack of components kept so far
(most recent first): empty and `.` components are dropped, `..` removes the
last real component, is dropped at the root and is kept at the start of a
relative path. -/
def cleanStep (rooted : Bool) (stack : List (List Char)) (comp : List Char) :
    List (List Char) :=
  if comp = [] ∨ comp = ['.'] then stack
  else if comp = ['.', '.'] then
    match stack with
    | [] => if rooted then [] else [comp]
    | top :: rest => if top = ['.', '.'] then comp :: stack else rest
  else comp :: stack

/-- The components `filepath.Clean` keeps, in order. -/
def cleanParts (p : List Char) : List (List Char) :=
  ((splitSlash p).foldl (cleanStep (p.head? = some '/')) []).reverse

/-- The text of a cleaned path with the components `parts`: they are joined by
the separator, after a leading separator when the path is rooted; a relative
path without components is `.`. -/
def renderPath (rooted : Bool) (parts : List (List Char)) : String :=
  if rooted then "/" ++ String.mk (List.intercalate ['/'] parts)
  else if parts = [] then "." else String.mk (List.intercalate ['/'] parts)

/-- The function `filepath.Clean`: the shortest path lexically equivalent to
`p`; the empty path becomes `.`. -/
def filepathClean (p : String) : String :=
  renderPath (p.data.head? = some '/') (cleanParts p.data)

/-- The call `filepath.Join(a, b)`: the non-empty elements joined by the
separator and cleaned; empty when both are empty. -/
def filepathJoin (a b : String) : String :=
  if a ≠ "" then filepathClean (a ++ "/" ++ b)
  else if b ≠ "" then filepathClean b
  else ""

/-! ## Collaborators -/

/-- The interface `Summer`: `Sum(path)` reads the file system `σ` and returns a
checksum and an error. -/
abbrev Summer (σ : Type) := String → σ → String × Option GoError

/-- The type `pexec.Execution`.  `Stdout` and `Stderr` are references to
buffers (Go: pointers to `bytes.Buffer` behind `io.Writer`). -/
structure Execution where
  Args : List String
  Dir : String
  Stdout : Nat
  Stderr : Nat
  Env : List String
  deriving DecidableEq, Repr

/-- The two output streams of a subprocess. -/
inductive Stream where
  | stdout
  | stderr
  deriving DecidableEq, Repr

/-- What one call of `Execute` does: the chunks the subprocess writes to its
output streams, in order, the error returned, and the file system it leaves. -/
structure ExecOutcome (σ : Type) where
  writes : List (Stream × String)
  err : Option GoError
  fs : σ

/-- The interface `Executable`: `Execute(execution)`. -/
abbrev Executable (σ : Type) := Execution → σ → ExecOutcome σ

/-- The system calls `Run` makes, over a file system state `σ`: `os.MkdirAll`,
`fs.Move`, `os.Symlink` (each returns an error and the state it leaves) and
`os.Environ`. -/
structure Sys (σ : Type) where
  MkdirAll : String → Nat → σ → Option GoError × σ
  Move : String → String → σ → Option GoError × σ
  Symlink : String → String → σ → Option GoError × σ
  Environ : List String

/-- The constant `os.ModePerm`, octal 0777. -/
def ModePerm : Nat := 511

/-- A call made by `Run`, with its arguments.  `Subprocess` is the call
`logger.Subprocess(format, args...)`. -/
inductive Event where
  | MkdirAll (path : String) (perm : Nat)
  | Move (source destination : String)
  | Symlink (oldname newname : String)
  | Subprocess (format : String) (args : List String)
  | Execute (execution : Execution)
  deriving DecidableEq, Repr

/-- The buffers allocated so far, addressed by position. -/
abbrev Buffers := List String

/-- The call `bytes.NewBuffer(nil)`: a reference to a fresh empty buffer. -/
def NewBuffer (h : Buffers) : Nat × Buffers := (h.length, h ++ [""])

/-- Appending `data` to the buffer at `ref`. -/
def Buffers.write : Buffers → Nat → String → Buffers
  | [], _, _ => []
  | b :: bs, 0, data => (b ++ data) :: bs
  | b :: bs, ref + 1, data => b :: Buffers.write bs ref data

/-- The method `String()` of the buffer at `ref`. -/
def Buffers.String (h : Buffers) (ref : Nat) : String := h.getD ref ""

/-- The writer a stream of the subprocess is bound to by an execution. -/
def Execution.writer (e : Execution) : Stream → Nat
  | .stdout => e.Stdout
  | .stderr => e.Stderr

/-- Delivering the output of a subprocess to the writers of its execution. -/
def deliver (e : Execution) (writes : List (Stream × String)) (h : Buffers) : Buffers :=
  writes.foldl (fun acc w => acc.write (e.writer w.1) w.2) h

/-! ## The build process -/

/-- The struct `CIBuildProcess`.  Its `logger` is not a field here: the calls
made on it are recorded as `Event.Subprocess`. -/
structure CIBuildProcess (σ : Type) where
  executable : Executable σ
  summer : Summer σ

/-- The constructor `NewCIBuildProcess`. -/
def NewCIBuildProcess {σ : Type} (executable : Executable σ) (summer : Summer σ) :
    CIBuildProcess σ :=
  { executable := executable, summer := summer }

/-- The result triple of `ShouldRun`. -/
structure ShouldRunResult where
  run : Bool
  sha : String
  err : Option GoError
  deriving DecidableEq, Repr

/-- The method `CIBuildProcess.ShouldRun`. -/
def CIBuildProcess.ShouldRun {σ : Type} (r : CIBuildProcess σ) (workingDir : String)
    (metadata : Metadata) (fs : σ) : ShouldRunResult :=
  match r.summer (filepathJoin workingDir "package-lock.json") fs with
  | (_, some err) => ⟨false, "", some err⟩
  | (sum, none) =>
    match (metadata.index "cache_sha").assertString with
    | (cacheSha, ok) =>
      if !ok || sum != cacheSha then ⟨true, sum, none⟩
      else ⟨false, "", none⟩

/-- What a call of `Run` leaves: the error returned, the file system, and the
calls made, in order. -/
structure RunResult (σ : Type) where
  err : Option GoError
  fs : σ
  events : List Event

/-- The method `CIBuildProcess.Run`. -/
def CIBuildProcess.Run {σ : Type} (sys : Sys σ) (r : CIBuildProcess σ)
    (modulesDir cacheDir workingDir : String) (fs : σ) : RunResult σ :=
  let ev1 := [Event.MkdirAll (filepathJoin workingDir "node_modules") ModePerm]
  match sys.MkdirAll (filepathJoin workingDir "node_modules") ModePerm fs with
  | (some err, fs1) => ⟨some err, fs1, ev1⟩
  | (none, fs1) =>
    let ev2 := ev1 ++ [Event.Move (filepathJoin workingDir "node_modules")
      (filepathJoin modulesDir "node_modules")]
    match sys.Move (filepathJoin workingDir "node_modules")
        (filepathJoin modulesDir "node_modules") fs1 with
    | (some err, fs2) => ⟨some err, fs2, ev2⟩
    | (none, fs2) =>
      let ev3 := ev2 ++ [Event.Symlink (filepathJoin modulesDir "node_modules")
        (filepathJoin workingDir "node_modules")]
      match sys.Symlink (filepathJoin modulesDir "node_modules")
          (filepathJoin workingDir "node_modules") fs2 with
      | (some err, fs3) => ⟨some err, fs3, ev3⟩
      | (none, fs3) =>
        let (buffer, heap) := NewBuffer []
        let args := ["ci", "--unsafe-perm", "--cache", cacheDir]
        let ev4 := ev3 ++ [Event.Subprocess "Running 'npm %s'" [String.intercalate " " args]]
        let execution : Execution :=
          { Args := args
            Dir := workingDir
            Stdout := buffer
            Stderr := buffer
            Env := sys.Environ ++ ["NPM_CONFIG_PRODUCTION=true", "NPM_CONFIG_LOGLEVEL=error"] }
        let ev5 := ev4 ++ [Event.Execute execution]
        let out := r.executable execution fs3
        let heap := deliver execution out.writes heap
        match out.err with
        | some err =>
          ⟨some (Errorf_w "npm ci failed: " err), out.fs,
            ev5 ++ [Event.Subprocess "%s" [heap.String buffer]]⟩
        | none => ⟨none, out.fs, ev5⟩

/-! ## A reference file system

A small file system used to run the build process on concrete inputs: a finite
map from cleaned paths to nodes. -/

/-- A node of the file system. -/
inductive Node where
  | dir
  | file (content : String)
  | symlink (target : String)
  deriving DecidableEq, Repr

/-- A file system: the nodes that exist, by path. -/
abbrev FS := List (String × Node)

/-- Whether `p` is `root` or lies below it. -/
def isUnder (root p : String) : Bool :=
  p == root || (root.data ++ ['/']).isPrefixOf p.data

/-- The tree at and below `root`. -/
def subtree (root : String) (fs : FS) : FS := fs.filter (fun e => isUnder root e.1)

/-- The file system without the tree at `root` (`os.RemoveAll`). -/
def removeAll (root : String) (fs : FS) : FS := fs.filter (fun e => !isUnder root e.1)

/-- The path `p` and its ancestors, outermost first. -/
def ancestors (p : String) : List String :=
  ((cleanParts p.data).inits.tail).map (renderPath (p.data.head? = some '/'))

/-- Creating the directories of `dirs` in order; a path held by something that
is not a directory fails with `ENOTDIR`. -/
def mkdirs (target : String) : List String → FS → Option GoError × FS
  | [], fs => (none, fs)
  | d :: ds, fs =>
    match fs.lookup d with
    | some .dir => mkdirs target ds fs
    | some _ => (some (.plain ("mkdir " ++ target ++ ": not a directory")), fs)
    | none => mkdirs target ds (fs ++ [(d, .dir)])

/-- The reference `os.MkdirAll`. -/
def refMkdirAll (path : String) (_perm : Nat) (fs : FS) : Option GoError × FS :=
  mkdirs path (ancestors path) fs

/-- The reference `fs.Move`: the destination is removed, the tree at the source
is copied to the destination, and the source is removed. -/
def refMove (source destination : String) (fs : FS) : Option GoError × FS :=
  let fs1 := removeAll destination fs
  match fs1.lookup source with
  | none => (some (.plain ("stat " ++ source ++ ": no such file or directory")), fs1)
  | some _ =>
    let moved := (subtree source fs1).map (fun e =>
      (destination ++ String.mk (e.1.data.drop source.length), e.2))
    (none, removeAll source fs1 ++ moved)

/-- The reference `os.Symlink`: fails with `EEXIST` when `newname` exists. -/
def refSymlink (oldname newname : String) (fs : FS) : Option GoError × FS :=
  match fs.lookup newname with
  | some _ =>
    (some (.plain ("symlink " ++ oldname ++ " " ++ newname ++ ": file exists")), fs)
  | none => (none, fs ++ [(newname, .symlink oldname)])

/-- The reference system over `FS`, with a given process environment. -/
def refSys (environ : List String) : Sys FS :=
  { MkdirAll := refMkdirAll, Move := refMove, Symlink := refSymlink, Environ := environ }

/-- The target of the symbolic link at `p`, if `p` is one (`os.Readlink`). -/
def readlink (fs : FS) (p : String) : Option String :=
  match fs.lookup p with
  | some (.symlink t) => some t
  | _ => none


/-- A reference `Summer`: the checksum of a regular file is a function of its
bytes alone (here the bytes themselves); anything else is a read error. -/
def refSummer : Summer FS := fun path fs =>
  match fs.lookup path with
  | some (.file content) => (content, none)
  | _ => ("", some (.plain ("open " ++ path ++ ": no such file or directory")))

/-- An executable that succeeds after writing to its standard output and
leaves the file system as it found it. -/
def okExecutable : Executable FS := fun _ fs =>
  { writes := [(Stream.stdout, "added 3 packages\n")], err := none, fs := fs }

/-- An executable that writes to both streams and then fails, leaving the file
system as it found it. -/
def failingExecutable : Executable FS := fun _ fs =>
  { writes := [(Stream.stdout, "npm ERR! "), (Stream.stderr, "network")],
    err := some (GoError.plain "exit status 1"), fs := fs }

/-- An executable that, as `npm ci` does before it installs, removes
`node_modules` in its working directory; it then succeeds. -/
def cleaningExecutable : Executable FS := fun execution fs =>
  { writes := [(Stream.stdout, "added 0 packages\n")], err := none,
    fs := removeAll (filepathJoin execution.Dir "node_modules") fs }

/-- A locked application in `/workspace`, with an empty layer directory. -/
def lockedApp : FS :=
  [("/layers/modules", .dir), ("/workspace", .dir),
   ("/workspace/package-lock.json", .file "lock-v1")]

/-- An application without a lockfile. -/
def unlockedApp : FS := [("/layers/modules", .dir), ("/workspace", .dir)]

/-- A system whose `os.Symlink` is refused. -/
def symlinkDeniedSys : Sys FS :=
  { MkdirAll := refMkdirAll
    Move := refMove
    Symlink := fun oldname newname fs =>
      (some (.plain ("symlink " ++ oldname ++ " " ++ newname ++ ": permission denied")), fs)
    Environ := ["PATH=/bin"] }

/-! ## Vocabulary of the properties -/

/-- The executions handed to `Executable.Execute`, in order. -/
def executions : List Event → List Execution
  | [] => []
  | .Execute e :: rest => e :: executions rest
  | _ :: rest => executions rest

/-- The calls made on the logger, in order. -/
def logged : List Event → List (String × List String)
  | [] => []
  | .Subprocess format args :: rest => (format, args) :: logged rest
  | _ :: rest => logged rest

/-- Whether an event is a call on the file system. -/
def Event.isFsCall : Event → Bool
  | .MkdirAll _ _ => true
  | .Move _ _ => true
  | .Symlink _ _ => true
  | _ => false

/-- The file system calls among the events, in order. -/
def fsCalls (events : List Event) : List Event := events.filter Event.isFsCall

/-- The first step of `Run`: the result of `os.MkdirAll`. -/
def stepMkdirAll {σ : Type} (sys : Sys σ) (workingDir : String) (fs : σ) :
    Option GoError × σ :=
  sys.MkdirAll (filepathJoin workingDir "node_modules") ModePerm fs

/-- The second step of `Run`: the result of `fs.Move` in the state the first
step leaves. -/
def stepMove {σ : Type} (sys : Sys σ) (modulesDir workingDir : String) (fs : σ) :
    Option GoError × σ :=
  sys.Move (filepathJoin workingDir "node_modules") (filepathJoin modulesDir "node_modules")
    (stepMkdirAll sys workingDir fs).2

/-- The third step of `Run`: the result of `os.Symlink` in the state the second
step leaves. -/
def stepSymlink {σ : Type} (sys : Sys σ) (modulesDir workingDir : String) (fs : σ) :
    Option GoError × σ :=
  sys.Symlink (filepathJoin modulesDir "node_modules") (filepathJoin workingDir "node_modules")
    (stepMove sys modulesDir workingDir fs).2

/-- The three file system steps of `Run` succeed from `fs`. -/
def stepsSucceed {σ : Type} (sys : Sys σ) (modulesDir workingDir : String) (fs : σ) : Prop :=
  (stepMkdirAll sys workingDir fs).1 = none ∧
  (stepMove sys modulesDir workingDir fs).1 = none ∧
  (stepSymlink sys modulesDir workingDir fs).1 = none

instance {σ : Type} (sys : Sys σ) (modulesDir workingDir : String) (fs : σ) :
    Decidable (stepsSucceed sys modulesDir workingDir fs) := by
  unfold stepsSucceed; infer_instance

/-- The execution the claims describe: `npm ci` with the cache directory as
last argument, run in the working directory, both streams on buffer `buffer`,
the two settings appended to the process environment. -/
def ciExecution (environ : List String) (cacheDir workingDir : String) (buffer : Nat) :
    Execution :=
  { Args := ["ci", "--unsafe-perm", "--cache", cacheDir]
    Dir := workingDir
    Stdout := buffer
    Stderr := buffer
    Env := environ ++ ["NPM_CONFIG_PRODUCTION=true", "NPM_CONFIG_LOGLEVEL=error"] }

/-- What `Execute` does when `Run` reaches it. -/
def stepExecute {σ : Type} (sys : Sys σ) (r : CIBuildProcess σ)
    (modulesDir cacheDir workingDir : String) (fs : σ) : ExecOutcome σ :=
  r.executable (ciExecution sys.Environ cacheDir workingDir 0)
    (stepSymlink sys modulesDir workingDir fs).2

/-- The text a subprocess writes, both streams taken together in the order
written. -/
def combinedOutput (writes : List (Stream × String)) : String :=
  writes.foldl (fun acc w => acc ++ w.2) ""

/-- The line logged before the subprocess starts. -/
def runningLine (cacheDir : String) : String × List String :=
  ("Running 'npm %s'", ["ci --unsafe-perm --cache " ++ cacheDir])

/-- The text of a returned error; empty for the nil error. -/
def errorText : Option GoError → String
  | some e => e.Error
  | none => ""

/-- The three file system calls of `Run`, in the order of the source. -/
def placementCalls (modulesDir workingDir : String) : List Event :=
  [Event.MkdirAll (filepathJoin workingDir "node_modules") ModePerm,
   Event.Move (filepathJoin workingDir "node_modules") (filepathJoin modulesDir "node_modules"),
   Event.Symlink (filepathJoin modulesDir "node_modules")
     (filepathJoin workingDir "node_modules")]

/-- The calls of `Run` up to and including `Execute`, when it is reached. -/
def callsThroughExecute (environ : List String) (modulesDir cacheDir workingDir : String) :
    List Event :=
  placementCalls modulesDir workingDir ++
    [Event.Subprocess (runningLine cacheDir).1 (runningLine cacheDir).2,
     Event.Execute (ciExecution environ cacheDir workingDir 0)]

/-! ## The cache gate: lemmas -/

theorem Metadata.index_set (m : Metadata) (key : String) (v : GoValue) :
    (m.set key v).index key = v := by
  cases m <;> simp [Metadata.set, Metadata.index, List.lookup]

theorem ShouldRun_of_sum_ok {σ : Type} (r : CIBuildProcess σ) (workingDir : String)
    (metadata : Metadata) (fs : σ) (s : String)
    (hsum : r.summer (filepathJoin workingDir "package-lock.json") fs = (s, none)) :
    r.ShouldRun workingDir metadata fs =
      if metadata.index "cache_sha" = .str s then ⟨false, "", none⟩ else ⟨true, s, none⟩ := by
  unfold CIBuildProcess.ShouldRun
  rw [hsum]
  cases hv : metadata.index "cache_sha" with
  | str c =>
    by_cases hc : s = c
    · subst hc; simp [GoValue.assertString]
    · have hc' : ¬ c = s := fun h => hc h.symm
      simp [GoValue.assertString, hc, hc']
  | _ => simp [GoValue.assertString]

theorem ShouldRun_of_sum_err {σ : Type} (r : CIBuildProcess σ) (workingDir : String)
    (metadata : Metadata) (fs : σ) (x : String) (e : GoError)
    (hsum : r.summer (filepathJoin workingDir "package-lock.json") fs = (x, some e)) :
    r.ShouldRun workingDir metadata fs = ⟨false, "", some e⟩ := by
  unfold CIBuildProcess.ShouldRun
  rw [hsum]

theorem ShouldRun_sha_of_run {σ : Type} (r : CIBuildProcess σ) (workingDir : String)
    (metadata : Metadata) (fs : σ) (s : String)
    (hsum : r.summer (filepathJoin workingDir "package-lock.json") fs = (s, none))
    (hrun : (r.ShouldRun workingDir metadata fs).run = true) :
    (r.ShouldRun workingDir metadata fs).sha = s := by
  rw [ShouldRun_of_sum_ok r workingDir metadata fs s hsum] at hrun ⊢
  by_cases h : metadata.index "cache_sha" = .str s
  · simp [h] at hrun
  · simp [h]

theorem ShouldRun_err_of_sum_ok {σ : Type} (r : CIBuildProcess σ) (workingDir : String)
    (metadata : Metadata) (fs : σ) (s : String)
    (hsum : r.summer (filepathJoin workingDir "package-lock.json") fs = (s, none)) :
    (r.ShouldRun workingDir metadata fs).err = none := by
  rw [ShouldRun_of_sum_ok r workingDir metadata fs s hsum]
  by_cases h : metadata.index "cache_sha" = .str s <;> simp [h]

/-! ## The cache gate: properties -/

/-- C1: when the Summer succeeds on the lockfile of the working directory with
sum `s`, `ShouldRun` returns `run = true` exactly when the metadata holds no
string under `cache_sha` (nil map, absent key or a value that is not a string)
or holds a string different from `s`; it returns `run = false` exactly when
`metadata["cache_sha"]` is the string `s`; the error is nil in both cases.
The last five parts say the same on the bindings of the map: nil map, absent
key, the string `s`, another string, a value that is not a string. -/
theorem ShouldRun_run_iff {σ : Type} (r : CIBuildProcess σ) (workingDir : String)
    (metadata : Metadata) (fs : σ) (s : String)
    (hsum : r.summer (filepathJoin workingDir "package-lock.json") fs = (s, none)) :
    ((r.ShouldRun workingDir metadata fs).run = true ↔
      ((∀ c, metadata.index "cache_sha" ≠ .str c) ∨
        ∃ c, metadata.index "cache_sha" = .str c ∧ c ≠ s)) ∧
    ((r.ShouldRun workingDir metadata fs).run = false ↔
      metadata.index "cache_sha" = .str s) ∧
    (r.ShouldRun workingDir metadata fs).err = none ∧
    (metadata = none → (r.ShouldRun workingDir metadata fs).run = true) ∧
    (∀ l, metadata = some l → l.lookup "cache_sha" = none →
      (r.ShouldRun workingDir metadata fs).run = true) ∧
    (∀ l, metadata = some l → l.lookup "cache_sha" = some (.str s) →
      (r.ShouldRun workingDir metadata fs).run = false) ∧
    (∀ l c, metadata = some l → l.lookup "cache_sha" = some (.str c) → c ≠ s →
      (r.ShouldRun workingDir metadata fs).run = true) ∧
    (∀ l v, metadata = some l → l.lookup "cache_sha" = some v → (∀ c, v ≠ .str c) →
      (r.ShouldRun workingDir metadata fs).run = true) := by
  rw [ShouldRun_of_sum_ok r workingDir metadata fs s hsum]
  refine ⟨?_, ?_, ?_, ?_, ?_, ?_, ?_, ?_⟩
  · by_cases h : metadata.index "cache_sha" = .str s
    · simp only [h, if_true]
      constructor
      · intro hf; exact absurd hf (by decide)
      · rintro (hno | ⟨c, hc, hne⟩)
        · exact absurd rfl (hno s)
        · exact absurd (GoValue.str.inj hc).symm hne
    · simp only [h, if_false, true_iff]
      cases hv : metadata.index "cache_sha" with
      | str c =>
        right
        refine ⟨c, rfl, ?_⟩
        intro hcs
        exact h (by rw [hv, hcs])
      | nil => left; intro c hc; cases hc
      | bool b => left; intro c hc; cases hc
      | int i => left; intro c hc; cases hc
  · by_cases h : metadata.index "cache_sha" = .str s <;> simp [h]
  · by_cases h : metadata.index "cache_sha" = .str s <;> simp [h]
  · intro hm
    subst hm
    simp [Metadata.index]
  · intro l hm hl
    subst hm
    simp [Metadata.index, hl]
  · intro l hm hl
    subst hm
    simp [Metadata.index, hl]
  · intro l c hm hl hne
    subst hm
    simp [Metadata.index, hl, hne]
  · intro l v hm hl hv
    subst hm
    have hne : ¬ v = GoValue.str s := hv s
    simp [Metadata.index, hl, hne]

/-- Witness of C1 on the locked application: a stored `cache_sha` equal to the
sum of the lockfile. -/
theorem ShouldRun_run_iff_witness :
    refSummer (filepathJoin "/workspace" "package-lock.json") lockedApp = ("lock-v1", none) ∧
    List.lookup "cache_sha" [("built_at", GoValue.str "2020-05-01"),
      ("cache_sha", GoValue.str "lock-v1")] = some (.str "lock-v1") ∧
    ((NewCIBuildProcess okExecutable refSummer).ShouldRun "/workspace"
      (some [("built_at", .str "2020-05-01"), ("cache_sha", .str "lock-v1")]) lockedApp).run =
      false :=
  ⟨by decide, by decide,
    (ShouldRun_run_iff (NewCIBuildProcess okExecutable refSummer) "/workspace"
      (some [("built_at", .str "2020-05-01"), ("cache_sha", .str "lock-v1")]) lockedApp
      "lock-v1" (by decide)).2.2.2.2.2.1 _ rfl (by decide)⟩

/-- C2, as stated, fails: on a cache hit (stored `cache_sha` equal to the sum
`lock-v1` of the lockfile) the Summer succeeds, the decision is `run = false`,
and the fingerprint returned is the empty string, not the sum. -/
theorem ShouldRun_sha_counterexample :
    refSummer (filepathJoin "/workspace" "package-lock.json") lockedApp = ("lock-v1", none) ∧
    ((NewCIBuildProcess okExecutable refSummer).ShouldRun "/workspace"
      (some [("cache_sha", .str "lock-v1")]) lockedApp).run = false ∧
    ((NewCIBuildProcess okExecutable refSummer).ShouldRun "/workspace"
      (some [("cache_sha", .str "lock-v1")]) lockedApp).sha ≠ "lock-v1" := by
  decide

/-- C2, amended: when the Summer succeeds with sum `s`, the fingerprint
returned with `run = true` is `s`, and the fingerprint returned with
`run = false` is the empty string. -/
theorem ShouldRun_sha {σ : Type} (r : CIBuildProcess σ) (workingDir : String)
    (metadata : Metadata) (fs : σ) (s : String)
    (hsum : r.summer (filepathJoin workingDir "package-lock.json") fs = (s, none)) :
    ((r.ShouldRun workingDir metadata fs).run = true →
      (r.ShouldRun workingDir metadata fs).sha = s) ∧
    ((r.ShouldRun workingDir metadata fs).run = false →
      (r.ShouldRun workingDir metadata fs).sha = "") := by
  rw [ShouldRun_of_sum_ok r workingDir metadata fs s hsum]
  by_cases h : metadata.index "cache_sha" = .str s <;> simp [h]

/-- Witness of the amended C2: with no stored fingerprint the locked
application is to be run and the fingerprint returned is the sum. -/
theorem ShouldRun_sha_witness :
    refSummer (filepathJoin "/workspace" "package-lock.json") lockedApp = ("lock-v1", none) ∧
    ((NewCIBuildProcess okExecutable refSummer).ShouldRun "/workspace" none lockedApp).run
      = true ∧
    ((NewCIBuildProcess okExecutable refSummer).ShouldRun "/workspace" none lockedApp).sha
      = "lock-v1" :=
  ⟨by decide, by decide,
    (ShouldRun_sha (NewCIBuildProcess okExecutable refSummer) "/workspace" none lockedApp
      "lock-v1" (by decide)).1 (by decide)⟩

/-- C3, as stated, fails: starting from a metadata mapping that already holds
the sum, the first call returns `(false, "", nil)`; with `cache_sha` set to that
returned fingerprint and the lockfile unchanged, the second call returns
`run = true`. -/
theorem ShouldRun_idempotent_counterexample :
    refSummer (filepathJoin "/workspace" "package-lock.json") lockedApp = ("lock-v1", none) ∧
    (NewCIBuildProcess okExecutable refSummer).ShouldRun "/workspace"
      (some [("cache_sha", .str "lock-v1")]) lockedApp = ⟨false, "", none⟩ ∧
    ((NewCIBuildProcess okExecutable refSummer).ShouldRun "/workspace"
      (Metadata.set (some [("cache_sha", .str "lock-v1")]) "cache_sha"
        (.str ((NewCIBuildProcess okExecutable refSummer).ShouldRun "/workspace"
          (some [("cache_sha", .str "lock-v1")]) lockedApp).sha))
      lockedApp).run = true := by
  decide

/-- C3, amended: if `ShouldRun(workingDir, m)` returns `(true, fp, nil)` and the
Summer returns the same sum on the next call, then `ShouldRun(workingDir, m')`,
where `m'` is `m` with `cache_sha` set to `fp`, returns `run = false` with a nil
error. -/
theorem ShouldRun_idempotent {σ : Type} (r : CIBuildProcess σ) (workingDir : String)
    (m : Metadata) (fs fs' : σ) (s : String)
    (hsum : r.summer (filepathJoin workingDir "package-lock.json") fs = (s, none))
    (hsum' : r.summer (filepathJoin workingDir "package-lock.json") fs' = (s, none))
    (hrun : (r.ShouldRun workingDir m fs).run = true) :
    (r.ShouldRun workingDir m fs).err = none ∧
    (r.ShouldRun workingDir
      (m.set "cache_sha" (.str (r.ShouldRun workingDir m fs).sha)) fs').run = false ∧
    (r.ShouldRun workingDir
      (m.set "cache_sha" (.str (r.ShouldRun workingDir m fs).sha)) fs').err = none := by
  have hsha := ShouldRun_sha_of_run r workingDir m fs s hsum hrun
  rw [hsha, ShouldRun_of_sum_ok r workingDir _ fs' s hsum', Metadata.index_set]
  refine ⟨?_, by simp, by simp⟩
  rw [ShouldRun_of_sum_ok r workingDir m fs s hsum]
  by_cases h : m.index "cache_sha" = .str s <;> simp [h]

/-- Witness of the amended C3: a first build of the locked application with a
stale fingerprint, then a second check after the layer directory was filled. -/
theorem ShouldRun_idempotent_witness :
    ((NewCIBuildProcess okExecutable refSummer).ShouldRun "/workspace"
      (some [("cache_sha", .str "lock-v0")]) lockedApp).run = true ∧
    ((NewCIBuildProcess okExecutable refSummer).ShouldRun "/workspace"
      (Metadata.set (some [("cache_sha", .str "lock-v0")]) "cache_sha"
        (.str ((NewCIBuildProcess okExecutable refSummer).ShouldRun "/workspace"
          (some [("cache_sha", .str "lock-v0")]) lockedApp).sha))
      (lockedApp ++ [("/layers/modules/node_modules", .dir)])).run = false :=
  ⟨by decide,
    (ShouldRun_idempotent (NewCIBuildProcess okExecutable refSummer) "/workspace"
      (some [("cache_sha", .str "lock-v0")]) lockedApp
      (lockedApp ++ [("/layers/modules/node_modules", .dir)]) "lock-v1"
      (by decide) (by decide) (by decide)).2.1⟩

/-- C4: if the Summer fails with error `e` on the lockfile of the working
directory, `ShouldRun` returns exactly `(false, "", e)` for every metadata
mapping, with `e` unchanged; and `ShouldRun` returns a non-nil error only when
the Summer does. -/
theorem ShouldRun_error {σ : Type} (r : CIBuildProcess σ) (workingDir : String)
    (metadata : Metadata) (fs : σ) :
    (∀ e, (r.summer (filepathJoin workingDir "package-lock.json") fs).2 = some e →
      r.ShouldRun workingDir metadata fs = ⟨false, "", some e⟩) ∧
    ((r.ShouldRun workingDir metadata fs).err ≠ none →
      (r.summer (filepathJoin workingDir "package-lock.json") fs).2 ≠ none) := by
  rcases hsum : r.summer (filepathJoin workingDir "package-lock.json") fs with ⟨x, _ | e⟩
  · refine ⟨fun e he => by simp at he, fun herr => ?_⟩
    exact absurd (ShouldRun_err_of_sum_ok r workingDir metadata fs x hsum) herr
  · refine ⟨fun e' he => ?_, fun _ => by simp⟩
    have : e = e' := by simpa using he
    subst this
    exact ShouldRun_of_sum_err r workingDir metadata fs x e hsum

/-- Witness of C4: the application without a lockfile; the read error of the
Summer comes back as it is. -/
theorem ShouldRun_error_witness :
    (refSummer (filepathJoin "/workspace" "package-lock.json") unlockedApp).2 =
      some (.plain "open /workspace/package-lock.json: no such file or directory") ∧
    (NewCIBuildProcess okExecutable refSummer).ShouldRun "/workspace"
      (some [("cache_sha", .str "lock-v1")]) unlockedApp =
      ⟨false, "", some (.plain "open /workspace/package-lock.json: no such file or directory")⟩ :=
  ⟨by decide,
    (ShouldRun_error (NewCIBuildProcess okExecutable refSummer) "/workspace"
      (some [("cache_sha", .str "lock-v1")]) unlockedApp).1 _ (by decide)⟩

/-! ## The build process: lemmas -/

theorem intercalate_args (cacheDir : String) :
    String.intercalate " " ["ci", "--unsafe-perm", "--cache", cacheDir] =
      "ci --unsafe-perm --cache " ++ cacheDir := by
  simp only [String.intercalate, String.intercalate.go]
  apply String.ext
  simp only [String.data_append]
  rfl

theorem deliver_one_buffer (environ : List String) (cacheDir workingDir : String)
    (writes : List (Stream × String)) (b : String) :
    deliver (ciExecution environ cacheDir workingDir 0) writes [b] =
      [writes.foldl (fun acc w => acc ++ w.2) b] := by
  induction writes generalizing b with
  | nil => rfl
  | cons w ws ih =>
    have hw : (ciExecution environ cacheDir workingDir 0).writer w.1 = 0 := by
      cases w.1 <;> rfl
    simp only [deliver, List.foldl_cons, hw, Buffers.write] at ih ⊢
    exact ih (b ++ w.2)

theorem Run_of_mkdir_err {σ : Type} (sys : Sys σ) (r : CIBuildProcess σ)
    (modulesDir cacheDir workingDir : String) (fs : σ) (e : GoError)
    (h : (stepMkdirAll sys workingDir fs).1 = some e) :
    r.Run sys modulesDir cacheDir workingDir fs =
      ⟨some e, (stepMkdirAll sys workingDir fs).2,
        [Event.MkdirAll (filepathJoin workingDir "node_modules") ModePerm]⟩ := by
  unfold stepMkdirAll at h ⊢
  unfold CIBuildProcess.Run
  rcases hm : sys.MkdirAll (filepathJoin workingDir "node_modules") ModePerm fs with ⟨o, fs1⟩
  rw [hm] at h
  simp only at h
  subst h
  rfl

theorem Run_of_move_err {σ : Type} (sys : Sys σ) (r : CIBuildProcess σ)
    (modulesDir cacheDir workingDir : String) (fs : σ) (e : GoError)
    (h1 : (stepMkdirAll sys workingDir fs).1 = none)
    (h2 : (stepMove sys modulesDir workingDir fs).1 = some e) :
    r.Run sys modulesDir cacheDir workingDir fs =
      ⟨some e, (stepMove sys modulesDir workingDir fs).2,
        [Event.MkdirAll (filepathJoin workingDir "node_modules") ModePerm,
         Event.Move (filepathJoin workingDir "node_modules")
           (filepathJoin modulesDir "node_modules")]⟩ := by
  unfold stepMove at h2 ⊢
  unfold stepMkdirAll at h1 h2 ⊢
  unfold CIBuildProcess.Run
  rcases hm : sys.MkdirAll (filepathJoin workingDir "node_modules") ModePerm fs with ⟨o, fs1⟩
  rw [hm] at h1 h2
  simp only at h1 h2
  subst h1
  dsimp only
  rcases hv : sys.Move (filepathJoin workingDir "node_modules")
    (filepathJoin modulesDir "node_modules") fs1 with ⟨o2, fs2⟩
  rw [hv] at h2
  simp only at h2
  subst h2
  rfl

theorem Run_of_symlink_err {σ : Type} (sys : Sys σ) (r : CIBuildProcess σ)
    (modulesDir cacheDir workingDir : String) (fs : σ) (e : GoError)
    (h1 : (stepMkdirAll sys workingDir fs).1 = none)
    (h2 : (stepMove sys modulesDir workingDir fs).1 = none)
    (h3 : (stepSymlink sys modulesDir workingDir fs).1 = some e) :
    r.Run sys modulesDir cacheDir workingDir fs =
      ⟨some e, (stepSymlink sys modulesDir workingDir fs).2,
        placementCalls modulesDir workingDir⟩ := by
  unfold stepSymlink at h3 ⊢
  unfold stepMove at h2 h3 ⊢
  unfold stepMkdirAll at h1 h2 h3 ⊢
  unfold CIBuildProcess.Run
  rcases hm : sys.MkdirAll (filepathJoin workingDir "node_modules") ModePerm fs with ⟨o, fs1⟩
  rw [hm] at h1 h2 h3
  simp only at h1 h2 h3
  subst h1
  dsimp only
  rcases hv : sys.Move (filepathJoin workingDir "node_modules")
    (filepathJoin modulesDir "node_modules") fs1 with ⟨o2, fs2⟩
  rw [hv] at h2 h3
  simp only at h2 h3
  subst h2
  dsimp only
  rcases hl : sys.Symlink (filepathJoin modulesDir "node_modules")
    (filepathJoin workingDir "node_modules") fs2 with ⟨o3, fs3⟩
  rw [hl] at h3
  simp only at h3
  subst h3
  rfl

theorem Run_of_steps {σ : Type} (sys : Sys σ) (r : CIBuildProcess σ)
    (modulesDir cacheDir workingDir : String) (fs : σ)
    (h : stepsSucceed sys modulesDir workingDir fs) :
    r.Run sys modulesDir cacheDir workingDir fs =
      match (stepExecute sys r modulesDir cacheDir workingDir fs).err with
      | some err =>
        ⟨some (Errorf_w "npm ci failed: " err),
          (stepExecute sys r modulesDir cacheDir workingDir fs).fs,
          callsThroughExecute sys.Environ modulesDir cacheDir workingDir ++
            [Event.Subprocess "%s"
              [combinedOutput (stepExecute sys r modulesDir cacheDir workingDir fs).writes]]⟩
      | none =>
        ⟨none, (stepExecute sys r modulesDir cacheDir workingDir fs).fs,
          callsThroughExecute sys.Environ modulesDir cacheDir workingDir⟩ := by
  obtain ⟨h1, h2, h3⟩ := h
  unfold stepExecute
  unfold stepSymlink at h3 ⊢
  unfold stepMove at h2 h3 ⊢
  unfold stepMkdirAll at h1 h2 h3 ⊢
  unfold CIBuildProcess.Run
  rcases hm : sys.MkdirAll (filepathJoin workingDir "node_modules") ModePerm fs with ⟨o, fs1⟩
  rw [hm] at h1 h2 h3
  simp only at h1 h2 h3
  subst h1
  dsimp only
  rcases hv : sys.Move (filepathJoin workingDir "node_modules")
    (filepathJoin modulesDir "node_modules") fs1 with ⟨o2, fs2⟩
  rw [hv] at h2 h3
  simp only at h2 h3
  subst h2
  dsimp only
  rcases hl : sys.Symlink (filepathJoin modulesDir "node_modules")
    (filepathJoin workingDir "node_modules") fs2 with ⟨o3, fs3⟩
  rw [hl] at h3
  simp only at h3
  subst h3
  dsimp only
  have hd := deliver_one_buffer sys.Environ cacheDir workingDir
    (r.executable (ciExecution sys.Environ cacheDir workingDir 0) fs3).writes ""
  simp only [NewBuffer, List.length_nil, List.nil_append, ciExecution] at hd ⊢
  rw [hd]
  simp only [intercalate_args, callsThroughExecute, placementCalls, runningLine, combinedOutput,
    Buffers.String, ciExecution, List.cons_append, List.nil_append, List.getD_cons_zero]

/-! ## Paths and the reference file system: lemmas -/

/-- The path model on rows of the table of `TestClean` and on joins of the
kind `Run` makes. -/
theorem filepathClean_table :
    filepathClean "" = "." ∧ filepathClean "abc" = "abc" ∧ filepathClean "/" = "/" ∧
    filepathClean "abc/" = "abc" ∧ filepathClean "abc//def//ghi" = "abc/def/ghi" ∧
    filepathClean "///abc" = "/abc" ∧ filepathClean "abc/./def" = "abc/def" ∧
    filepathClean "abc/def/../ghi/../jkl" = "abc/jkl" ∧ filepathClean "abc/def/../.." = "." ∧
    filepathClean "/abc/def/../../.." = "/" ∧
    filepathClean "abc/def/../../../ghi/jkl/../../../mno" = "../../mno" ∧
    filepathClean "/../abc" = "/abc" ∧ filepathClean "abc/./../def" = "def" ∧
    filepathClean "abc/../../././../def" = "../../def" ∧
    filepathJoin "/workspace" "node_modules" = "/workspace/node_modules" ∧
    filepathJoin "/layers/modules/" "node_modules" = "/layers/modules/node_modules" ∧
    filepathJoin "" "node_modules" = "node_modules" ∧
    filepathJoin "/" "package-lock.json" = "/package-lock.json" := by
  decide

theorem splitSlashAux_append_slash (a b cur : List Char) :
    splitSlashAux (a ++ '/' :: b) cur = splitSlashAux a cur ++ splitSlashAux b [] := by
  induction a generalizing cur with
  | nil => simp [splitSlashAux]
  | cons c cs ih =>
    by_cases hc : c = '/'
    · simp [splitSlashAux, hc, ih]
    · simp [splitSlashAux, hc, ih]

theorem cleanParts_node_modules (rooted : Bool) (a : List Char) :
    ((splitSlash (a ++ '/' :: "node_modules".data)).foldl (cleanStep rooted) []).reverse =
      ((splitSlash a).foldl (cleanStep rooted) []).reverse ++ ["node_modules".data] := by
  have hsplit : splitSlashAux "node_modules".data [] = ["node_modules".data] := by decide
  have hstep : ∀ st, cleanStep rooted st "node_modules".data = "node_modules".data :: st := by
    intro st
    have h1 : ¬ ("node_modules".data = [] ∨ "node_modules".data = ['.']) := by decide
    have h2 : ¬ "node_modules".data = ['.', '.'] := by decide
    simp only [cleanStep, h1, h2, if_false]
  unfold splitSlash
  rw [splitSlashAux_append_slash, hsplit, List.foldl_append]
  simp only [List.foldl_cons, List.foldl_nil, hstep, List.reverse_cons]

theorem filepathJoin_node_modules (dir : String) :
    filepathJoin dir "node_modules" =
      renderPath (dir.data.head? = some '/') (cleanParts dir.data ++ ["node_modules".data]) := by
  unfold filepathJoin
  by_cases hd : dir = ""
  · subst hd
    decide
  · have hne : dir.data ≠ [] := fun h => hd (String.ext h)
    have hhead : (dir ++ "/" ++ "node_modules").data.head? = dir.data.head? := by
      cases hdata : dir.data with
      | nil => exact absurd hdata hne
      | cons c cs => simp [String.data_append, hdata]
    have hdata : (dir ++ "/" ++ "node_modules").data = dir.data ++ '/' :: "node_modules".data := by
      simp [String.data_append]
    simp only [hd, ne_eq, not_false_eq_true, if_true, filepathClean, hhead, cleanParts]
    rw [hdata, cleanParts_node_modules]

theorem refSymlink_readlink (oldname newname : String) (fs : FS)
    (h : (refSymlink oldname newname fs).1 = none) :
    readlink (refSymlink oldname newname fs).2 newname = some oldname := by
  unfold refSymlink at h ⊢
  cases hl : fs.lookup newname with
  | some n => rw [hl] at h; simp at h
  | none =>
    simp only [readlink]
    have : (fs ++ [(newname, Node.symlink oldname)]).lookup newname =
        some (Node.symlink oldname) := by
      rw [List.lookup_append, hl]
      simp [List.lookup]
    rw [this]

/-! ## The build process: properties -/

/-- C5: when the three file system steps of `Run` succeed, `Run` invokes
`Executable.Execute` exactly once, with `Args` equal to
`["ci", "--unsafe-perm", "--cache", cacheDir]`, `Dir` equal to `workingDir`,
`Stdout` and `Stderr` bound to one and the same buffer, and `Env` equal to the
process environment followed by `NPM_CONFIG_PRODUCTION=true` and
`NPM_CONFIG_LOGLEVEL=error`, in that order. -/
theorem Run_executes_once {σ : Type} (sys : Sys σ) (r : CIBuildProcess σ)
    (modulesDir cacheDir workingDir : String) (fs : σ)
    (h : stepsSucceed sys modulesDir workingDir fs) :
    executions (r.Run sys modulesDir cacheDir workingDir fs).events =
      [{ Args := ["ci", "--unsafe-perm", "--cache", cacheDir]
         Dir := workingDir
         Stdout := 0
         Stderr := 0
         Env := sys.Environ ++ ["NPM_CONFIG_PRODUCTION=true", "NPM_CONFIG_LOGLEVEL=error"] }] ∧
    (∀ e ∈ executions (r.Run sys modulesDir cacheDir workingDir fs).events,
      e.Stdout = e.Stderr ∧ e.Args.getLast? = some cacheDir) := by
  rw [Run_of_steps sys r modulesDir cacheDir workingDir fs h]
  cases (stepExecute sys r modulesDir cacheDir workingDir fs).err <;>
    simp [callsThroughExecute, placementCalls, executions, ciExecution]

/-- Witness of C5: a first build of the locked application. -/
theorem Run_executes_once_witness :
    stepsSucceed (refSys ["PATH=/bin"]) "/layers/modules" "/workspace" lockedApp ∧
    executions ((NewCIBuildProcess okExecutable refSummer).Run (refSys ["PATH=/bin"])
      "/layers/modules" "/layers/cache" "/workspace" lockedApp).events =
      [{ Args := ["ci", "--unsafe-perm", "--cache", "/layers/cache"]
         Dir := "/workspace"
         Stdout := 0
         Stderr := 0
         Env := ["PATH=/bin", "NPM_CONFIG_PRODUCTION=true", "NPM_CONFIG_LOGLEVEL=error"] }] :=
  ⟨by decide,
    (Run_executes_once (refSys ["PATH=/bin"]) (NewCIBuildProcess okExecutable refSummer)
      "/layers/modules" "/layers/cache" "/workspace" lockedApp (by decide)).1⟩

/-- C6: the steps of `Run` are made in the order `MkdirAll(workingDir/node_modules)`,
`Move(workingDir/node_modules, modulesDir/node_modules)`,
`Symlink(modulesDir/node_modules, workingDir/node_modules)`, `Execute`; if one
of the three file system steps fails with error `e`, `Run` returns `e`, the
calls made are exactly the steps up to the failing one, so that no later file
system step is attempted, `Execute` is not invoked and nothing is logged. -/
theorem Run_fails_fast {σ : Type} (sys : Sys σ) (r : CIBuildProcess σ)
    (modulesDir cacheDir workingDir : String) (fs : σ) :
    (∀ e, (stepMkdirAll sys workingDir fs).1 = some e →
      (r.Run sys modulesDir cacheDir workingDir fs).err = some e ∧
      (r.Run sys modulesDir cacheDir workingDir fs).events =
        [Event.MkdirAll (filepathJoin workingDir "node_modules") ModePerm] ∧
      executions (r.Run sys modulesDir cacheDir workingDir fs).events = [] ∧
      logged (r.Run sys modulesDir cacheDir workingDir fs).events = []) ∧
    (∀ e, (stepMkdirAll sys workingDir fs).1 = none →
      (stepMove sys modulesDir workingDir fs).1 = some e →
      (r.Run sys modulesDir cacheDir workingDir fs).err = some e ∧
      (r.Run sys modulesDir cacheDir workingDir fs).events =
        [Event.MkdirAll (filepathJoin workingDir "node_modules") ModePerm,
         Event.Move (filepathJoin workingDir "node_modules")
           (filepathJoin modulesDir "node_modules")] ∧
      executions (r.Run sys modulesDir cacheDir workingDir fs).events = [] ∧
      logged (r.Run sys modulesDir cacheDir workingDir fs).events = []) ∧
    (∀ e, (stepMkdirAll sys workingDir fs).1 = none →
      (stepMove sys modulesDir workingDir fs).1 = none →
      (stepSymlink sys modulesDir workingDir fs).1 = some e →
      (r.Run sys modulesDir cacheDir workingDir fs).err = some e ∧
      (r.Run sys modulesDir cacheDir workingDir fs).events =
        [Event.MkdirAll (filepathJoin workingDir "node_modules") ModePerm,
         Event.Move (filepathJoin workingDir "node_modules")
           (filepathJoin modulesDir "node_modules"),
         Event.Symlink (filepathJoin modulesDir "node_modules")
           (filepathJoin workingDir "node_modules")] ∧
      executions (r.Run sys modulesDir cacheDir workingDir fs).events = [] ∧
      logged (r.Run sys modulesDir cacheDir workingDir fs).events = []) ∧
    (stepsSucceed sys modulesDir workingDir fs →
      (r.Run sys modulesDir cacheDir workingDir fs).events.take 5 =
        [Event.MkdirAll (filepathJoin workingDir "node_modules") ModePerm,
         Event.Move (filepathJoin workingDir "node_modules")
           (filepathJoin modulesDir "node_modules"),
         Event.Symlink (filepathJoin modulesDir "node_modules")
           (filepathJoin workingDir "node_modules"),
         Event.Subprocess "Running 'npm %s'" ["ci --unsafe-perm --cache " ++ cacheDir],
         Event.Execute (ciExecution sys.Environ cacheDir workingDir 0)]) := by
  refine ⟨fun e h1 => ?_, fun e h1 h2 => ?_, fun e h1 h2 h3 => ?_, fun h => ?_⟩
  · rw [Run_of_mkdir_err sys r modulesDir cacheDir workingDir fs e h1]
    simp [executions, logged]
  · rw [Run_of_move_err sys r modulesDir cacheDir workingDir fs e h1 h2]
    simp [executions, logged]
  · rw [Run_of_symlink_err sys r modulesDir cacheDir workingDir fs e h1 h2 h3]
    simp [executions, logged, placementCalls]
  · rw [Run_of_steps sys r modulesDir cacheDir workingDir fs h]
    cases (stepExecute sys r modulesDir cacheDir workingDir fs).err <;>
      simp [callsThroughExecute, placementCalls, runningLine]

/-- Witness of C6: the link cannot be created in the working directory; the
error of `os.Symlink` is returned after the three file system calls. -/
theorem Run_fails_fast_witness :
    (stepMkdirAll symlinkDeniedSys "/workspace" lockedApp).1 = none ∧
    (stepMove symlinkDeniedSys "/layers/modules" "/workspace" lockedApp).1 = none ∧
    (stepSymlink symlinkDeniedSys "/layers/modules" "/workspace" lockedApp).1 = some (.plain
      "symlink /layers/modules/node_modules /workspace/node_modules: permission denied") ∧
    ((NewCIBuildProcess okExecutable refSummer).Run symlinkDeniedSys
      "/layers/modules" "/layers/cache" "/workspace" lockedApp).err = some (.plain
      "symlink /layers/modules/node_modules /workspace/node_modules: permission denied") :=
  ⟨by decide, by decide, by decide,
    ((Run_fails_fast symlinkDeniedSys (NewCIBuildProcess okExecutable refSummer)
      "/layers/modules" "/layers/cache" "/workspace" lockedApp).2.2.1 _
      (by decide) (by decide) (by decide)).1⟩

/-- C7: when the file system steps of `Run` succeed and `Execute` returns an
error `e`, `Run` hands the contents of the output buffer to the logger as its
last call and returns an error whose text is `npm ci failed: ` followed by the
text of `e` and which unwraps to `e`; when `Execute` returns nil, `Run` returns
nil and only the `Running` line is logged.  In every call of `Run`, `Execute`
is invoked at most once. -/
theorem Run_subprocess_result {σ : Type} (sys : Sys σ) (r : CIBuildProcess σ)
    (modulesDir cacheDir workingDir : String) (fs : σ) :
    (executions (r.Run sys modulesDir cacheDir workingDir fs).events).length ≤ 1 ∧
    (stepsSucceed sys modulesDir workingDir fs →
      (∀ e, (stepExecute sys r modulesDir cacheDir workingDir fs).err = some e →
        (∃ err, (r.Run sys modulesDir cacheDir workingDir fs).err = some err ∧
          err.Error = "npm ci failed: " ++ e.Error ∧ err.Unwrap = some e) ∧
        (r.Run sys modulesDir cacheDir workingDir fs).events.getLast? =
          some (Event.Subprocess "%s"
            [combinedOutput (stepExecute sys r modulesDir cacheDir workingDir fs).writes]) ∧
        logged (r.Run sys modulesDir cacheDir workingDir fs).events =
          [("Running 'npm %s'", ["ci --unsafe-perm --cache " ++ cacheDir]),
           ("%s", [combinedOutput (stepExecute sys r modulesDir cacheDir workingDir fs).writes])]) ∧
      ((stepExecute sys r modulesDir cacheDir workingDir fs).err = none →
        (r.Run sys modulesDir cacheDir workingDir fs).err = none ∧
        logged (r.Run sys modulesDir cacheDir workingDir fs).events =
          [("Running 'npm %s'", ["ci --unsafe-perm --cache " ++ cacheDir])])) := by
  constructor
  · cases h1 : (stepMkdirAll sys workingDir fs).1 with
    | some e =>
      rw [Run_of_mkdir_err sys r modulesDir cacheDir workingDir fs e h1]
      simp [executions]
    | none =>
      cases h2 : (stepMove sys modulesDir workingDir fs).1 with
      | some e =>
        rw [Run_of_move_err sys r modulesDir cacheDir workingDir fs e h1 h2]
        simp [executions]
      | none =>
        cases h3 : (stepSymlink sys modulesDir workingDir fs).1 with
        | some e =>
          rw [Run_of_symlink_err sys r modulesDir cacheDir workingDir fs e h1 h2 h3]
          simp [executions, placementCalls]
        | none =>
          rw [Run_of_steps sys r modulesDir cacheDir workingDir fs ⟨h1, h2, h3⟩]
          cases (stepExecute sys r modulesDir cacheDir workingDir fs).err <;>
            simp [callsThroughExecute, placementCalls, executions]
  · intro h
    rw [Run_of_steps sys r modulesDir cacheDir workingDir fs h]
    constructor
    · intro e he
      rw [he]
      simp [callsThroughExecute, placementCalls, logged, runningLine, Errorf_w,
        GoError.Error, GoError.Unwrap]
    · intro he
      rw [he]
      simp [callsThroughExecute, placementCalls, logged, runningLine]

/-- Witness of C7: `npm ci` fails on the locked application. -/
theorem Run_subprocess_result_witness :
    stepsSucceed (refSys ["PATH=/bin"]) "/layers/modules" "/workspace" lockedApp ∧
    (stepExecute (refSys ["PATH=/bin"]) (NewCIBuildProcess failingExecutable refSummer)
      "/layers/modules" "/layers/cache" "/workspace" lockedApp).err =
      some (.plain "exit status 1") ∧
    logged ((NewCIBuildProcess failingExecutable refSummer).Run (refSys ["PATH=/bin"])
      "/layers/modules" "/layers/cache" "/workspace" lockedApp).events =
      [("Running 'npm %s'", ["ci --unsafe-perm --cache /layers/cache"]),
       ("%s", ["npm ERR! network"])] :=
  ⟨by decide, by decide,
    ((Run_subprocess_result (refSys ["PATH=/bin"])
      (NewCIBuildProcess failingExecutable refSummer)
      "/layers/modules" "/layers/cache" "/workspace" lockedApp).2 (by decide)).1
      (.plain "exit status 1") (by decide) |>.2.2⟩

/-- C8, as stated, fails: `npm ci` fails after writing `npm ERR! network` to its
streams; the error returned by `Run` has the text
`npm ci failed: exit status 1`, in which the captured output does not occur. -/
theorem Run_error_text_counterexample :
    stepsSucceed (refSys ["PATH=/bin"]) "/layers/modules" "/workspace" lockedApp ∧
    (stepExecute (refSys ["PATH=/bin"]) (NewCIBuildProcess failingExecutable refSummer)
      "/layers/modules" "/layers/cache" "/workspace" lockedApp).err ≠ none ∧
    combinedOutput (stepExecute (refSys ["PATH=/bin"])
      (NewCIBuildProcess failingExecutable refSummer)
      "/layers/modules" "/layers/cache" "/workspace" lockedApp).writes = "npm ERR! network" ∧
    errorText ((NewCIBuildProcess failingExecutable refSummer).Run (refSys ["PATH=/bin"])
      "/layers/modules" "/layers/cache" "/workspace" lockedApp).err =
      "npm ci failed: exit status 1" ∧
    ¬ ("npm ERR! network".data <:+:
      (errorText ((NewCIBuildProcess failingExecutable refSummer).Run (refSys ["PATH=/bin"])
        "/layers/modules" "/layers/cache" "/workspace" lockedApp).err).data) := by
  decide

/-- C8, amended: for every `Run` in which the subprocess fails, the contents of
the buffer are what `Run` hands to the logger in its last call, and the text of
the error returned is `npm ci failed: ` followed by the text of the error of
`Execute`; it contains that text, and it contains the captured output exactly
when `npm ci failed: ` followed by the text of that error does. -/
theorem Run_failure_output {σ : Type} (sys : Sys σ) (r : CIBuildProcess σ)
    (modulesDir cacheDir workingDir : String) (fs : σ) (e : GoError)
    (h : stepsSucceed sys modulesDir workingDir fs)
    (he : (stepExecute sys r modulesDir cacheDir workingDir fs).err = some e) :
    (logged (r.Run sys modulesDir cacheDir workingDir fs).events).getLast? =
      some ("%s", [combinedOutput (stepExecute sys r modulesDir cacheDir workingDir fs).writes]) ∧
    errorText (r.Run sys modulesDir cacheDir workingDir fs).err =
      "npm ci failed: " ++ e.Error ∧
    e.Error.data <:+: (errorText (r.Run sys modulesDir cacheDir workingDir fs).err).data ∧
    ((combinedOutput (stepExecute sys r modulesDir cacheDir workingDir fs).writes).data <:+:
        (errorText (r.Run sys modulesDir cacheDir workingDir fs).err).data ↔
      (combinedOutput (stepExecute sys r modulesDir cacheDir workingDir fs).writes).data <:+:
        ("npm ci failed: " ++ e.Error).data) := by
  rw [Run_of_steps sys r modulesDir cacheDir workingDir fs h, he]
  refine ⟨?_, rfl, ?_, Iff.rfl⟩
  · simp [callsThroughExecute, placementCalls, logged, runningLine]
  · show e.Error.data <:+: ("npm ci failed: " ++ e.Error).data
    exact ⟨"npm ci failed: ".data, [], by rw [String.data_append, List.append_nil]⟩

/-- Witness of the amended C8: `npm ci` fails on the locked application. -/
theorem Run_failure_output_witness :
    stepsSucceed (refSys ["PATH=/bin"]) "/layers/modules" "/workspace" lockedApp ∧
    errorText ((NewCIBuildProcess failingExecutable refSummer).Run (refSys ["PATH=/bin"])
      "/layers/modules" "/layers/cache" "/workspace" lockedApp).err =
      "npm ci failed: " ++ (GoError.plain "exit status 1").Error :=
  ⟨by decide,
    (Run_failure_output (refSys ["PATH=/bin"]) (NewCIBuildProcess failingExecutable refSummer)
      "/layers/modules" "/layers/cache" "/workspace" lockedApp (.plain "exit status 1")
      (by decide) (by decide)).2.1⟩

/-- C9, as stated, fails.  On the locked application all three file system
steps succeed and the subprocess, which removes `node_modules` in its working
directory, returns nil: on return nothing is at `/workspace/node_modules`, so
the link is not in place although `Run` made no file system call after
creating it.  And with an empty `modulesDir` the target of the link is the
relative path `node_modules`, which names no directory it would lie in. -/
theorem Run_symlink_counterexample :
    (stepsSucceed (refSys ["PATH=/bin"]) "/layers/modules" "/workspace" lockedApp ∧
      ((NewCIBuildProcess cleaningExecutable refSummer).Run (refSys ["PATH=/bin"])
        "/layers/modules" "/layers/cache" "/workspace" lockedApp).err = none ∧
      readlink (stepSymlink (refSys ["PATH=/bin"]) "/layers/modules" "/workspace" lockedApp).2
        "/workspace/node_modules" = some "/layers/modules/node_modules" ∧
      readlink ((NewCIBuildProcess cleaningExecutable refSummer).Run (refSys ["PATH=/bin"])
        "/layers/modules" "/layers/cache" "/workspace" lockedApp).fs
        "/workspace/node_modules" = none ∧
      List.lookup "/workspace/node_modules"
        ((NewCIBuildProcess cleaningExecutable refSummer).Run (refSys ["PATH=/bin"])
          "/layers/modules" "/layers/cache" "/workspace" lockedApp).fs = none) ∧
    (stepsSucceed (refSys ["PATH=/bin"]) "" "/workspace" lockedApp ∧
      (fsCalls ((NewCIBuildProcess okExecutable refSummer).Run (refSys ["PATH=/bin"])
        "" "/layers/cache" "/workspace" lockedApp).events).getLast? =
        some (Event.Symlink "node_modules" "/workspace/node_modules")) := by
  decide

/-- C9, amended: whenever `Run` reaches the subprocess (the three file system
steps succeeded), the file system calls `Run` makes are `MkdirAll`, `Move` and,
last, the creation of the symbolic link at `workingDir/node_modules` whose
target is the path text `filepath.Join(modulesDir, "node_modules")`, the
cleaned `modulesDir` followed by the component `node_modules`; no call `Run`
makes after it is a file system call, and the file system on return is the one
the subprocess leaves, whether `Execute` succeeds or fails.  For every reading
`linkAt` of links that `os.Symlink` establishes when it succeeds, the link is in
place when the subprocess starts, it is in place on return exactly when the
subprocess left it in place, and so it is in place on return if the subprocess
does not change it. -/
theorem Run_symlink_in_place {σ : Type} (sys : Sys σ) (r : CIBuildProcess σ)
    (modulesDir cacheDir workingDir : String) (fs : σ)
    (h : stepsSucceed sys modulesDir workingDir fs) :
    fsCalls (r.Run sys modulesDir cacheDir workingDir fs).events =
      [Event.MkdirAll (filepathJoin workingDir "node_modules") ModePerm,
       Event.Move (filepathJoin workingDir "node_modules")
         (filepathJoin modulesDir "node_modules"),
       Event.Symlink (filepathJoin modulesDir "node_modules")
         (filepathJoin workingDir "node_modules")] ∧
    (fsCalls (r.Run sys modulesDir cacheDir workingDir fs).events).getLast? =
      some (Event.Symlink (filepathJoin modulesDir "node_modules")
        (filepathJoin workingDir "node_modules")) ∧
    (r.Run sys modulesDir cacheDir workingDir fs).events.take 3 =
      fsCalls (r.Run sys modulesDir cacheDir workingDir fs).events ∧
    fsCalls ((r.Run sys modulesDir cacheDir workingDir fs).events.drop 3) = [] ∧
    filepathJoin modulesDir "node_modules" =
      renderPath (modulesDir.data.head? = some '/')
        (cleanParts modulesDir.data ++ ["node_modules".data]) ∧
    (r.Run sys modulesDir cacheDir workingDir fs).fs =
      (stepExecute sys r modulesDir cacheDir workingDir fs).fs ∧
    (∀ linkAt : σ → String → Option String,
      (∀ oldname newname s, (sys.Symlink oldname newname s).1 = none →
        linkAt (sys.Symlink oldname newname s).2 newname = some oldname) →
      linkAt (stepExecute sys r modulesDir cacheDir workingDir fs).fs
          (filepathJoin workingDir "node_modules") =
        linkAt (stepSymlink sys modulesDir workingDir fs).2
          (filepathJoin workingDir "node_modules") →
      linkAt (r.Run sys modulesDir cacheDir workingDir fs).fs
          (filepathJoin workingDir "node_modules") =
        some (filepathJoin modulesDir "node_modules")) ∧
    (∀ linkAt : σ → String → Option String,
      (∀ oldname newname s, (sys.Symlink oldname newname s).1 = none →
        linkAt (sys.Symlink oldname newname s).2 newname = some oldname) →
      linkAt (stepSymlink sys modulesDir workingDir fs).2
          (filepathJoin workingDir "node_modules") =
        some (filepathJoin modulesDir "node_modules") ∧
      (linkAt (r.Run sys modulesDir cacheDir workingDir fs).fs
          (filepathJoin workingDir "node_modules") =
          some (filepathJoin modulesDir "node_modules") ↔
        linkAt (stepExecute sys r modulesDir cacheDir workingDir fs).fs
          (filepathJoin workingDir "node_modules") =
          some (filepathJoin modulesDir "node_modules"))) := by
  have hfs : (r.Run sys modulesDir cacheDir workingDir fs).fs =
      (stepExecute sys r modulesDir cacheDir workingDir fs).fs := by
    rw [Run_of_steps sys r modulesDir cacheDir workingDir fs h]
    cases (stepExecute sys r modulesDir cacheDir workingDir fs).err <;> rfl
  refine ⟨?_, ?_, ?_, ?_, filepathJoin_node_modules modulesDir, hfs, ?_, ?_⟩
  · rw [Run_of_steps sys r modulesDir cacheDir workingDir fs h]
    cases (stepExecute sys r modulesDir cacheDir workingDir fs).err <;>
      simp [callsThroughExecute, placementCalls, fsCalls, Event.isFsCall, List.filter]
  · rw [Run_of_steps sys r modulesDir cacheDir workingDir fs h]
    cases (stepExecute sys r modulesDir cacheDir workingDir fs).err <;>
      simp [callsThroughExecute, placementCalls, fsCalls, Event.isFsCall, List.filter]
  · rw [Run_of_steps sys r modulesDir cacheDir workingDir fs h]
    cases (stepExecute sys r modulesDir cacheDir workingDir fs).err <;>
      simp [callsThroughExecute, placementCalls, fsCalls, Event.isFsCall, List.filter]
  · rw [Run_of_steps sys r modulesDir cacheDir workingDir fs h]
    cases (stepExecute sys r modulesDir cacheDir workingDir fs).err <;>
      simp [callsThroughExecute, placementCalls, fsCalls, Event.isFsCall, List.filter]
  · intro linkAt hlaw hframe
    rw [hfs, hframe]
    exact hlaw _ _ _ h.2.2
  · intro linkAt hlaw
    refine ⟨hlaw _ _ _ h.2.2, ?_⟩
    rw [hfs]

/-- Witness of the amended C9: `npm ci` fails on the locked application; on return
`/workspace/node_modules` is a link to `/layers/modules/node_modules`. -/
theorem Run_symlink_in_place_witness :
    stepsSucceed (refSys ["PATH=/bin"]) "/layers/modules" "/workspace" lockedApp ∧
    ((NewCIBuildProcess failingExecutable refSummer).Run (refSys ["PATH=/bin"])
      "/layers/modules" "/layers/cache" "/workspace" lockedApp).err ≠ none ∧
    readlink ((NewCIBuildProcess failingExecutable refSummer).Run (refSys ["PATH=/bin"])
        "/layers/modules" "/layers/cache" "/workspace" lockedApp).fs
        (filepathJoin "/workspace" "node_modules") =
      some (filepathJoin "/layers/modules" "node_modules") :=
  ⟨by decide, by decide,
    (Run_symlink_in_place (refSys ["PATH=/bin"])
      (NewCIBuildProcess failingExecutable refSummer)
      "/layers/modules" "/layers/cache" "/workspace" lockedApp (by decide)).2.2.2.2.2.2.1
      readlink (fun o n s hs => refSymlink_readlink o n s hs) (by decide)⟩

/-- C10, as stated, fails.  On the locked application with an empty layer
directory, `Run` returns a non-nil error when the link cannot be created, and
when `npm ci` fails; in both cases the tree under `/layers/modules` is not what
it was before the call: `node_modules` has been moved into it. -/
theorem Run_layer_counterexample :
    (((NewCIBuildProcess okExecutable refSummer).Run symlinkDeniedSys
        "/layers/modules" "/layers/cache" "/workspace" lockedApp).err ≠ none ∧
      subtree "/layers/modules" ((NewCIBuildProcess okExecutable refSummer).Run
        symlinkDeniedSys "/layers/modules" "/layers/cache" "/workspace" lockedApp).fs ≠
        subtree "/layers/modules" lockedApp ∧
      (lockedApp.lookup "/layers/modules/node_modules" = none ∧
        ((NewCIBuildProcess okExecutable refSummer).Run symlinkDeniedSys
          "/layers/modules" "/layers/cache" "/workspace" lockedApp).fs.lookup
          "/layers/modules/node_modules" = some .dir)) ∧
    (((NewCIBuildProcess failingExecutable refSummer).Run (refSys ["PATH=/bin"])
        "/layers/modules" "/layers/cache" "/workspace" lockedApp).err ≠ none ∧
      subtree "/layers/modules" ((NewCIBuildProcess failingExecutable refSummer).Run
        (refSys ["PATH=/bin"]) "/layers/modules" "/layers/cache" "/workspace" lockedApp).fs ≠
        subtree "/layers/modules" lockedApp) := by
  decide

/-- C10, amended: `Run` undoes nothing.  For every call of `Run` that returns a
non-nil error, the file system on return is the one left by the step that
failed, made after the steps before it succeeded: by `MkdirAll` when it fails
(the single call `Run` has then made is `MkdirAll` on
`workingDir/node_modules`), by `Move` when it fails, by `Symlink` when it fails
after `Move` was made, and by the subprocess when it fails after all three
file system calls were made. -/
theorem Run_failure_state {σ : Type} (sys : Sys σ) (r : CIBuildProcess σ)
    (modulesDir cacheDir workingDir : String) (fs : σ)
    (herr : (r.Run sys modulesDir cacheDir workingDir fs).err ≠ none) :
    ((stepMkdirAll sys workingDir fs).1 ≠ none ∧
      (r.Run sys modulesDir cacheDir workingDir fs).fs = (stepMkdirAll sys workingDir fs).2 ∧
      (r.Run sys modulesDir cacheDir workingDir fs).events =
        [Event.MkdirAll (filepathJoin workingDir "node_modules") ModePerm]) ∨
    ((stepMkdirAll sys workingDir fs).1 = none ∧
      (stepMove sys modulesDir workingDir fs).1 ≠ none ∧
      (r.Run sys modulesDir cacheDir workingDir fs).fs =
        (stepMove sys modulesDir workingDir fs).2 ∧
      fsCalls (r.Run sys modulesDir cacheDir workingDir fs).events =
        [Event.MkdirAll (filepathJoin workingDir "node_modules") ModePerm,
         Event.Move (filepathJoin workingDir "node_modules")
           (filepathJoin modulesDir "node_modules")]) ∨
    ((stepMkdirAll sys workingDir fs).1 = none ∧
      (stepMove sys modulesDir workingDir fs).1 = none ∧
      (stepSymlink sys modulesDir workingDir fs).1 ≠ none ∧
      (r.Run sys modulesDir cacheDir workingDir fs).fs =
        (stepSymlink sys modulesDir workingDir fs).2 ∧
      fsCalls (r.Run sys modulesDir cacheDir workingDir fs).events =
        placementCalls modulesDir workingDir) ∨
    (stepsSucceed sys modulesDir workingDir fs ∧
      (stepExecute sys r modulesDir cacheDir workingDir fs).err ≠ none ∧
      (r.Run sys modulesDir cacheDir workingDir fs).fs =
        (stepExecute sys r modulesDir cacheDir workingDir fs).fs ∧
      fsCalls (r.Run sys modulesDir cacheDir workingDir fs).events =
        placementCalls modulesDir workingDir) := by
  cases h1 : (stepMkdirAll sys workingDir fs).1 with
  | some e =>
    left
    rw [Run_of_mkdir_err sys r modulesDir cacheDir workingDir fs e h1]
    simp
  | none =>
    right
    cases h2 : (stepMove sys modulesDir workingDir fs).1 with
    | some e =>
      left
      rw [Run_of_move_err sys r modulesDir cacheDir workingDir fs e h1 h2]
      simp [fsCalls, Event.isFsCall, List.filter]
    | none =>
      right
      cases h3 : (stepSymlink sys modulesDir workingDir fs).1 with
      | some e =>
        left
        rw [Run_of_symlink_err sys r modulesDir cacheDir workingDir fs e h1 h2 h3]
        simp [fsCalls, Event.isFsCall, List.filter, placementCalls]
      | none =>
        right
        have hs : stepsSucceed sys modulesDir workingDir fs := ⟨h1, h2, h3⟩
        rw [Run_of_steps sys r modulesDir cacheDir workingDir fs hs] at herr ⊢
        cases he : (stepExecute sys r modulesDir cacheDir workingDir fs).err with
        | none => rw [he] at herr; simp at herr
        | some e =>
          simp [hs, callsThroughExecute, fsCalls, Event.isFsCall, List.filter, placementCalls]

/-- Witness of the amended C10: the link cannot be created; on return
`node_modules` is in the layer directory, where `Move` put it, and absent from
the working directory. -/
theorem Run_failure_state_witness :
    ((NewCIBuildProcess okExecutable refSummer).Run symlinkDeniedSys
      "/layers/modules" "/layers/cache" "/workspace" lockedApp).err ≠ none ∧
    (stepSymlink symlinkDeniedSys "/layers/modules" "/workspace" lockedApp).1 ≠ none ∧
    ((NewCIBuildProcess okExecutable refSummer).Run symlinkDeniedSys
      "/layers/modules" "/layers/cache" "/workspace" lockedApp).fs =
      (stepSymlink symlinkDeniedSys "/layers/modules" "/workspace" lockedApp).2 ∧
    ((NewCIBuildProcess okExecutable refSummer).Run symlinkDeniedSys
      "/layers/modules" "/layers/cache" "/workspace" lockedApp).fs =
      [("/layers/modules", .dir), ("/workspace", .dir),
       ("/workspace/package-lock.json", .file "lock-v1"),
       ("/layers/modules/node_modules", .dir)] := by
  refine ⟨by decide, by decide, ?_, by decide⟩
  rcases Run_failure_state symlinkDeniedSys (NewCIBuildProcess okExecutable refSummer)
    "/layers/modules" "/layers/cache" "/workspace" lockedApp (by decide) with h | h | h | h
  · exact absurd (by decide) h.1
  · exact absurd (by decide) h.2.1
  · exact h.2.2.2.1
  · exact absurd h.1.2.2 (by decide)

end npminstall
